import Mathlib

set_option maxRecDepth 40000

/-!
Shallow embedding of `src/main.rs` of the `danish-numbers` repository:
a program turning a number into its written-out Danish numeral name.

Modelling conventions:
* Rust `i128` values are modelled as `Int`; the single arithmetic operation
  that can overflow (`number *= -1`, which overflows exactly on the minimum
  `i128` value `-2^127`) is modelled as a failure (`none`).
* Rust panics (arithmetic overflow, out-of-bounds slice indexing, failing
  `unwrap`) are modelled by returning `none`; the panicking slice index
  `NUMBER_NAMES[i][j]` is the fallible lookup `lex i j` below.
* After the sign is stripped the original code only ever works on
  non-negative `i128` values, so the arithmetic below is on `Nat`
  (`Int.natAbs` of the input); on that domain Rust's truncated `/` and `%`
  agree with `Nat` division and remainder.
* The `while` loop collecting the base-1000 digit groups is written with a
  fuel argument (the number itself bounds the iteration count); the loop
  semantics is recovered by `digits_by_thousands_eq` below.
-/

-- DANISH LANGUAGE STRINGS (the lexicon constants of the source)

def AND : String := "og"

def PLURAL_SUFFIX : String := "er"

def MINUS : String := "minus"

def DECIMAL_SEPERATOR : String := "komma"

def NEUTER_ONE : String := "et"

/-- Emphasised "one". The source file stores this string double-encoded
(bytes C3 83 C2 A9 6E), i.e. the three characters below; the embedding keeps
the exact character sequence of the source. -/
def EMPH_ONE : String := "Ã©n"

def HUNDRED : String := "hundrede"

def NUMBER_NAMES : List (List String) :=
  [ ["nul", "en", "to", "tre", "fire", "fem", "seks", "syv", "otte", "ni"],
    ["ti", "elleve", "tolv", "tretten", "fjorten", "femten", "seksten",
     "sytten", "atten", "nitten"],
    ["tyve", "tredive", "fyrre", "halvtreds", "tres", "halvfjerds", "firs",
     "halvfems"],
    ["tusind", "million", "milliard", "billion", "billiard", "trillion",
     "trilliard", "kvadrillion", "kvadrilliard", "kvintillion",
     "kvintilliard", "sekstillion"] ]

/-- The four rows of the lexicon, for use in spec-facing statements. -/
def UNITS : List String := NUMBER_NAMES.getD 0 []

def TEENS : List String := NUMBER_NAMES.getD 1 []

def TENS_DECADES : List String := NUMBER_NAMES.getD 2 []

def MAGNITUDES : List String := NUMBER_NAMES.getD 3 []

/-- The panicking slice index `NUMBER_NAMES[i][j]` of the source, as a
fallible lookup (`none` models the out-of-bounds panic). -/
def lex (i j : Nat) : Option String :=
  (NUMBER_NAMES.get? i).bind (fun row => row.get? j)

/-- `fn nth_digit(number: i128, n: u32) -> i128`, the n-th digit of an
integer (`number / 10.pow(n - 1) % 10`). The source version is on `i128`;
it is only ever applied to non-negative values, on which Rust's truncated
division and remainder agree with `Nat` division and remainder. -/
def nth_digit (number : Nat) (n : Nat) : Nat :=
  number / 10 ^ (n - 1) % 10

/-- The `if number < 1000` early-return branch of
`danish_compound_numeral_name` for `i128` (without the `minus_string`
prefix, which is empty for the non-negative group values this branch is
recursively applied to). -/
def smallName? (number : Nat) : Option String :=
  if number < 10 then
    -- Numbers below 10: their name from the list, except "one" (neuter gender)
    if number = 1 then some NEUTER_ONE else lex 0 number
  else
    let hundreds := nth_digit number 3
    let tens := nth_digit number 2
    let ones := nth_digit number 1
    do
      let hundredsStr ←
        if hundreds > 0 then
          (if hundreds = 1 then some NEUTER_ONE else lex 0 hundreds).map
            (fun w => w ++ " " ++ HUNDRED)
        else some ""
      -- "and" between the hundreds and the tens/ones, when both are present
      let andStr := if tens + ones > 0 ∧ hundreds > 0 then " " ++ AND ++ " " else ""
      let tensOnes ←
        if tens = 0 then
          if ones = 0 then some ""
          else if ones = 1 then some EMPH_ONE
          else lex 0 ones
        else if tens = 1 then lex 1 ones
        else if ones = 0 then lex 2 (tens - 2)
        else do
          let u ← lex 0 ones
          let d ← lex 2 (tens - 2)
          some (u ++ AND ++ d)
      some (hundredsStr ++ andStr ++ tensOnes)

/-- Fuel-driven version of the `while n > 0` loop collecting the base-1000
digit groups (least-significant group first); the fuel `number` itself
bounds the number of iterations. -/
def digitsByThousandsAux : Nat → Nat → List Nat
  | 0, _ => []
  | fuel + 1, n => if n = 0 then [] else n % 1000 :: digitsByThousandsAux fuel (n / 1000)

/-- `digits_by_thousands`: the list built by the source's `while` loop. -/
def digits_by_thousands (number : Nat) : List Nat :=
  digitsByThousandsAux number number

/-- Body of the `for (i, digits) in digits_by_thousands.iter().enumerate()`
loop for one group with index `i` and value `digits` (the zero groups are
skipped by the caller). The recursive call
`Self::danish_compound_numeral_name(digits)` is `smallName?` because every
group value is in `[0, 999]` and non-negative, so the callee takes its
`number < 1000` early return with an empty `minus_string`. -/
def groupFragment? (dbt : List Nat) (i : Nat) (digits : Nat) : Option String := do
  let s0 ← smallName? digits
  -- `if i == 0 && (*digits < 100 || *(digits_by_thousands.get(1).unwrap_or(&1)) == 0)`
  let s1 :=
    if i = 0 ∧ (digits < 100 ∨ dbt.getD 1 1 = 0) then
      AND ++ " " ++ (if digits = 1 then EMPH_ONE else s0)
    else s0
  -- `if i > 1 && *digits == 1 { string = NUMBER_NAMES[0][1].to_string(); }`
  let s2 ← if i > 1 ∧ digits = 1 then lex 0 1 else some s1
  if i > 0 then
    (lex 3 (i - 1)).map
      (fun m => s2 ++ " " ++ m ++ (if i > 1 ∧ digits > 1 then PLURAL_SUFFIX else ""))
  else some s2

/-- The whole `for` loop over the enumerated digit groups, with `i` the
index of the head of the remaining list `l`; groups with value 0 are
skipped (`continue`). -/
def groupStringsAux? (dbt : List Nat) : Nat → List Nat → Option (List String)
  | _, [] => some []
  | i, digits :: rest =>
    if digits = 0 then groupStringsAux? dbt (i + 1) rest
    else do
      let s ← groupFragment? dbt i digits
      let ss ← groupStringsAux? dbt (i + 1) rest
      some (s :: ss)

def groupStrings? (dbt : List Nat) : Option (List String) :=
  groupStringsAux? dbt 0 dbt

/-- `strings.join(" ")` of Rust: interleaves a single space between the
list entries. -/
def joinSpace : List String → String
  | [] => ""
  | s :: [] => s
  | s :: s2 :: rest => s ++ " " ++ joinSpace (s2 :: rest)

/-- `impl DanishCompoundNumeral for i128`. The input is an `Int`; callers
constrain it to the `i128` range. `number *= -1` overflows `i128` exactly
when the input is `-2^127`, which is modelled as a failure; on every other
input the sign test and negation amount to taking `Int.natAbs`. -/
def danish_compound_numeral_name_i128? (self : Int) : Option String :=
  if self = -(2 ^ 127) then none
  else
    let negative := self < 0
    let number := self.natAbs
    let minus_string := if negative then MINUS ++ " " else ""
    if number < 1000 then
      (smallName? number).map (fun s => minus_string ++ s)
    else
      (groupStrings? (digits_by_thousands number)).map
        (fun strings => minus_string ++ joinSpace strings.reverse)

/-- Rust's `String::pop` (drop the last character). -/
def popChar (s : String) : String :=
  String.mk s.data.dropLast

/-- The `for decimal_string in decimals.unwrap().chars()` loop of the `f64`
implementation, building `decimals_string`: each fractional digit's raw name
followed by `", "`. The conversion `to_digit(10).unwrap()` happens before
this model (the digits arrive as `Nat`s); the panicking index
`NUMBER_NAMES[0][decimal]` is the fallible `lex 0 decimal`. -/
def decimalsString? : List Nat → Option String
  | [] => some ""
  | d :: rest => do
    let w ← lex 0 d
    let s ← decimalsString? rest
    some (w ++ ", " ++ s)

/-- `impl DanishCompoundNumeral for f64`. The floating-point specific steps
(`number.to_string()`, `split('.')`, `number.floor() as i128`) cannot be
reproduced in the embedding; the function instead receives their results:
`before_decimal` (the saturating `i128` cast of the floor) and `decimals`
(the digit values after the radix point of the textual rendering, `none`
when the rendering has none). The two `decimals_string.pop()` calls are
`popChar`. -/
def danish_compound_numeral_name_f64? (before_decimal : Int)
    (decimals : Option (List Nat)) : Option String :=
  match decimals with
  | some ds => do
    let decimals_string ← decimalsString? ds
    let intPart ← danish_compound_numeral_name_i128? before_decimal
    some (intPart ++ " " ++ DECIMAL_SEPERATOR ++ " " ++ popChar (popChar decimals_string))
  | none => danish_compound_numeral_name_i128? before_decimal

-- Spec-facing definitions (used to state refinement claims)

/-- Modelled from the spec's words for the digit-group renderer on
`[10, 999]` (claim C6): hundreds digit `H`, tens digit `T`, ones digit `O`,
assembled per the spec's case list. To be compared with `smallName?`. -/
def specDigitGroup (g : Nat) : String :=
  let H := g / 100 % 10
  let T := g / 10 % 10
  let O := g % 10
  (if H > 0 then (if H = 1 then NEUTER_ONE else UNITS.getD H "") ++ " " ++ HUNDRED else "")
    ++ (if H > 0 ∧ T + O > 0 then " " ++ AND ++ " " else "")
    ++ (if T = 0 then
          if O = 0 then "" else if O = 1 then EMPH_ONE else UNITS.getD O ""
        else if T = 1 then TEENS.getD O ""
        else if O = 0 then TENS_DECADES.getD (T - 2) ""
        else UNITS.getD O "" ++ AND ++ TENS_DECADES.getD (T - 2) "")

/-- Modelled from the spec's words for the fractional-digit joint (claim
C8): the digit names joined by a comma-space separator. To be compared with
the `decimalsString?`-then-pop-twice path of the source. -/
def joinCommaSpace : List String → String
  | [] => ""
  | w :: [] => w
  | w :: w2 :: rest => w ++ ", " ++ joinCommaSpace (w2 :: rest)

/-- Observation used to state word-level claims: split a character list at
the spaces (the words of a rendered name, in order; adjacent or leading or
trailing spaces would show up as empty words). -/
def splitOnSpace : List Char → List (List Char)
  | [] => [[]]
  | c :: cs =>
    match splitOnSpace cs with
    | [] => [[c]]
    | w :: ws => if c = ' ' then [] :: w :: ws else (c :: w) :: ws

/-- No two adjacent whitespace characters. -/
def chainOkB : List Char → Bool
  | [] => true
  | _ :: [] => true
  | a :: b :: rest => (!(a.isWhitespace && b.isWhitespace)) && chainOkB (b :: rest)

/-- A nonempty character list whose first and last characters are not
whitespace and which never has two adjacent whitespace characters. -/
def listGoodB : List Char → Bool
  | [] => false
  | c :: cs => (!c.isWhitespace) && (!((c :: cs).getLastD ' ').isWhitespace) && chainOkB (c :: cs)

/-- A nonempty string with no leading or trailing whitespace and no two
consecutive whitespace characters (hence no doubled spaces). -/
def goodStrB (s : String) : Bool :=
  listGoodB s.data

/-- Success plus well-spacedness of an optional rendering, as one Boolean
so the whole domain of the digit-group renderer can be checked by
enumeration. -/
def optGoodB : Option String → Bool
  | some s => goodStrB s
  | none => false


-- STRING HELPERS

theorem str_empty_append (s : String) : "" ++ s = s := by
  cases s
  rfl

theorem str_append_empty (s : String) : s ++ "" = s := by
  cases s with
  | mk l => show String.mk (l ++ []) = String.mk l; rw [List.append_nil]

theorem str_append_assoc (a b c : String) : a ++ b ++ c = a ++ (b ++ c) := by
  cases a with
  | mk la =>
    cases b with
    | mk lb =>
      cases c with
      | mk lc => show String.mk (la ++ lb ++ lc) = String.mk (la ++ (lb ++ lc)); rw [List.append_assoc]

-- WELL-SPACED STRINGS (for the whitespace invariant C10)

theorem getLastD_cons_default (y : α) (l : List α) (d d' : α) :
    (y :: l).getLastD d = (y :: l).getLastD d' := by
  rw [List.getLastD_cons, List.getLastD_cons]

theorem getLastD_append_cons (l1 : List α) (y : α) (l2 : List α) (d : α) :
    (l1 ++ y :: l2).getLastD d = (y :: l2).getLastD d := by
  induction l1 generalizing d with
  | nil => rfl
  | cons a t ih =>
    rw [List.cons_append, List.getLastD_cons]
    rcases t with _ | ⟨b, t⟩
    · simp only [List.nil_append]
      exact getLastD_cons_default y l2 a d
    · rw [ih]
      exact getLastD_cons_default y l2 a d


theorem listGoodB_iff (c : Char) (cs : List Char) :
    listGoodB (c :: cs) = true ↔
      c.isWhitespace = false ∧ ((c :: cs).getLastD ' ').isWhitespace = false ∧
        chainOkB (c :: cs) = true := by
  simp [listGoodB, Bool.and_eq_true, Bool.not_eq_true', and_assoc]

theorem chainOkB_append : ∀ (r1 : List Char) (c1 h2 : Char) (t2 : List Char),
    chainOkB (c1 :: r1) = true →
    ((c1 :: r1).getLastD ' ').isWhitespace = false →
    h2.isWhitespace = false →
    chainOkB (h2 :: t2) = true →
    chainOkB ((c1 :: r1) ++ ' ' :: h2 :: t2) = true := by
  intro r1
  induction r1 with
  | nil =>
    intro c1 h2 t2 hc hl hh hc2
    have hc1 : c1.isWhitespace = false := by
      simpa [List.getLastD_cons] using hl
    simp [chainOkB, hc1, hh, hc2]
  | cons c2 r ih =>
    intro c1 h2 t2 hc hl hh hc2
    have pieces : (!(c1.isWhitespace && c2.isWhitespace)) = true ∧ chainOkB (c2 :: r) = true := by
      simpa [chainOkB, Bool.and_eq_true] using hc
    have hl2 : ((c2 :: r).getLastD ' ').isWhitespace = false := by
      rw [List.getLastD_cons, List.getLastD_cons] at hl
      rw [List.getLastD_cons]
      exact hl
    have key := ih c2 h2 t2 pieces.2 hl2 hh hc2
    simp only [List.cons_append] at key ⊢
    simp [chainOkB, pieces.1, key]

theorem listGoodB_append (l1 l2 : List Char)
    (h1 : listGoodB l1 = true) (h2 : listGoodB l2 = true) :
    listGoodB (l1 ++ ' ' :: l2) = true := by
  rcases l1 with _ | ⟨c, cs⟩
  · simp [listGoodB] at h1
  rcases l2 with _ | ⟨d, ds⟩
  · simp [listGoodB] at h2
  obtain ⟨hcw, hclast, hcchain⟩ := (listGoodB_iff c cs).mp h1
  obtain ⟨hdw, hdlast, hdchain⟩ := (listGoodB_iff d ds).mp h2
  have hchain := chainOkB_append cs c d ds hcchain hclast hdw hdchain
  rw [List.cons_append]
  refine (listGoodB_iff c (cs ++ ' ' :: d :: ds)).mpr ⟨hcw, ?_, ?_⟩
  · have heq : (c :: (cs ++ ' ' :: d :: ds)).getLastD ' ' = (d :: ds).getLastD ' ' := by
      rw [show c :: (cs ++ ' ' :: d :: ds) = (c :: cs) ++ ' ' :: d :: ds from rfl]
      rw [getLastD_append_cons, List.getLastD_cons]
    rw [heq]
    exact hdlast
  · rw [show c :: (cs ++ ' ' :: d :: ds) = (c :: cs) ++ ' ' :: d :: ds from rfl]
    exact hchain

theorem goodStrB_join (a b : String) (ha : goodStrB a = true) (hb : goodStrB b = true) :
    goodStrB (a ++ " " ++ b) = true := by
  unfold goodStrB at *
  rw [String.data_append, String.data_append]
  rw [show (" " : String).data = [' '] from rfl, List.append_assoc]
  exact listGoodB_append _ _ ha hb

-- DIGIT-GROUPING LEMMAS

theorem digitsByThousandsAux_zero (fuel : Nat) : digitsByThousandsAux fuel 0 = [] := by
  cases fuel <;> simp [digitsByThousandsAux]

theorem digitsByThousandsAux_congr :
    ∀ (f g n : Nat), n ≤ f → n ≤ g → digitsByThousandsAux f n = digitsByThousandsAux g n := by
  intro f
  induction f with
  | zero =>
    intro g n hf _
    have : n = 0 := by omega
    subst this
    rw [digitsByThousandsAux_zero, digitsByThousandsAux_zero]
  | succ f ih =>
    intro g n hf hg
    by_cases hn : n = 0
    · subst hn
      rw [digitsByThousandsAux_zero, digitsByThousandsAux_zero]
    · rcases g with _ | g
      · omega
      · simp only [digitsByThousandsAux, hn, if_false]
        have hdiv : n / 1000 < n := Nat.div_lt_self (by omega) (by omega)
        rw [ih g (n / 1000) (by omega) (by omega)]

theorem digits_by_thousands_eq (n : Nat) :
    digits_by_thousands n = if n = 0 then [] else n % 1000 :: digits_by_thousands (n / 1000) := by
  by_cases hn : n = 0
  · subst hn
    simp [digits_by_thousands, digitsByThousandsAux_zero]
  · rcases hm : n with _ | m
    · omega
    · rw [← hm]
      simp only [hn, if_false]
      unfold digits_by_thousands
      rw [hm]
      simp only [digitsByThousandsAux, hm ▸ hn, if_false]
      rw [← hm]
      have hdiv : n / 1000 < n := Nat.div_lt_self (by omega) (by omega)
      rw [digitsByThousandsAux_congr m (n / 1000) (n / 1000) (by omega) (by omega)]

theorem digitsByThousandsAux_lt :
    ∀ (fuel n : Nat) (v : Nat), v ∈ digitsByThousandsAux fuel n → v < 1000 := by
  intro fuel
  induction fuel with
  | zero => intro n v hv; simp [digitsByThousandsAux] at hv
  | succ f ih =>
    intro n v hv
    by_cases hn : n = 0
    · subst hn; simp [digitsByThousandsAux] at hv
    · simp only [digitsByThousandsAux, hn, if_false, List.mem_cons] at hv
      rcases hv with h | h
      · subst h; omega
      · exact ih _ _ h

theorem digits_by_thousands_lt (n v : Nat) (hv : v ∈ digits_by_thousands n) : v < 1000 :=
  digitsByThousandsAux_lt n n v hv

theorem digitsByThousandsAux_length :
    ∀ (fuel n k : Nat), n < 1000 ^ k → (digitsByThousandsAux fuel n).length ≤ k := by
  intro fuel
  induction fuel with
  | zero => intro n k _; simp [digitsByThousandsAux]
  | succ f ih =>
    intro n k hk
    by_cases hn : n = 0
    · subst hn; simp [digitsByThousandsAux]
    · rcases k with _ | k
      · simp at hk; omega
      · simp only [digitsByThousandsAux, hn, if_false, List.length_cons]
        have hdiv : n / 1000 < 1000 ^ k := by
          rw [Nat.div_lt_iff_lt_mul (by omega : 0 < 1000)]
          calc n < 1000 ^ (k + 1) := hk
          _ = 1000 ^ k * 1000 := by rw [pow_succ]
        have := ih (n / 1000) k hdiv
        omega

theorem digits_by_thousands_length (n k : Nat) (h : n < 1000 ^ k) :
    (digits_by_thousands n).length ≤ k :=
  digitsByThousandsAux_length n n k h

theorem digitsByThousandsAux_exists_nonzero :
    ∀ (fuel n : Nat), n ≠ 0 → n ≤ fuel → ∃ v ∈ digitsByThousandsAux fuel n, v ≠ 0 := by
  intro fuel
  induction fuel with
  | zero => intro n hn hf; omega
  | succ f ih =>
    intro n hn hf
    simp only [digitsByThousandsAux, hn, if_false]
    by_cases hmod : n % 1000 = 0
    · have hge : 1000 ≤ n := by omega
      have hq : n / 1000 ≠ 0 := by omega
      obtain ⟨v, hv, hvne⟩ := ih (n / 1000) hq (by omega)
      exact ⟨v, List.mem_cons_of_mem _ hv, hvne⟩
    · exact ⟨n % 1000, List.mem_cons_self _ _, hmod⟩

theorem digits_by_thousands_exists_nonzero (n : Nat) (hn : n ≠ 0) :
    ∃ v ∈ digits_by_thousands n, v ≠ 0 :=
  digitsByThousandsAux_exists_nonzero n n hn (le_refl n)

-- LEXICON LEMMAS

theorem lex0_eq : ∀ j, j < 10 → lex 0 j = some (UNITS.getD j "") := by decide

theorem lex1_eq : ∀ j, j < 10 → lex 1 j = some (TEENS.getD j "") := by decide

theorem lex2_eq : ∀ j, j < 8 → lex 2 j = some (TENS_DECADES.getD j "") := by decide

theorem lex3_eq : ∀ j, j < 12 → lex 3 j = some (MAGNITUDES.getD j "") := by decide

theorem lex3_mem (j : Nat) (m : String) (h : lex 3 j = some m) : m ∈ MAGNITUDES := by
  unfold lex at h
  simp only [NUMBER_NAMES, List.get?] at h
  exact List.get?_mem h

theorem magnitudes_good (m : String) (hm : m ∈ MAGNITUDES) :
    goodStrB m = true ∧ goodStrB (m ++ PLURAL_SUFFIX) = true := by
  fin_cases hm <;> exact ⟨by decide, by decide⟩

-- JOIN LEMMAS

theorem joinSpace_good (ss : List String) (hne : ss ≠ [])
    (hg : ∀ s ∈ ss, goodStrB s = true) : goodStrB (joinSpace ss) = true := by
  induction ss with
  | nil => exact absurd rfl hne
  | cons s rest ih =>
    rcases rest with _ | ⟨s2, rest⟩
    · simpa [joinSpace] using hg s (by simp)
    · have h1 : goodStrB s = true := hg s (by simp)
      have h2 : goodStrB (joinSpace (s2 :: rest)) = true := by
        refine ih (by simp) ?_
        intro x hx
        exact hg x (List.mem_cons_of_mem _ hx)
      simpa [joinSpace] using goodStrB_join s (joinSpace (s2 :: rest)) h1 h2

-- SMALL-BRANCH LEMMAS (bounded enumeration over [0, 999])

theorem smallName_opt_good : ∀ n, n < 1000 → optGoodB (smallName? n) = true := by decide

theorem smallName_isSome (n : Nat) (h : n < 1000) : (smallName? n).isSome := by
  have hg := smallName_opt_good n h
  cases hs : smallName? n with
  | none => rw [hs] at hg; exact absurd hg (by simp [optGoodB])
  | some t => simp

theorem smallName_good (n : Nat) (h : n < 1000) (t : String)
    (ht : smallName? n = some t) : goodStrB t = true := by
  have hg := smallName_opt_good n h
  rw [ht] at hg
  exact hg

-- GROUP-FRAGMENT LEMMAS

/-- Normalized form of `groupFragment?` once the rendering of the group
value is known: the leading-conjunction rule, the gender-override rule and
the magnitude-word injection, with the binds reduced. -/
theorem groupFragment_eq (dbt : List Nat) (i v : Nat) (s0 : String)
    (hs0 : smallName? v = some s0) :
    groupFragment? dbt i v =
      (if 1 < i ∧ v = 1 then lex 0 1
       else some (if i = 0 ∧ (v < 100 ∨ dbt.getD 1 1 = 0) then
           AND ++ " " ++ (if v = 1 then EMPH_ONE else s0)
         else s0)).bind
        (fun s2 =>
          if 0 < i then
            (lex 3 (i - 1)).map
              (fun m => s2 ++ " " ++ m ++ (if 1 < i ∧ 1 < v then PLURAL_SUFFIX else ""))
          else some s2) := by
  rw [groupFragment?, hs0]
  simp only [Option.bind_eq_bind, Option.some_bind, gt_iff_lt]
  by_cases hgen : 1 < i ∧ v = 1
  · simp [hgen]
  · simp [hgen]

theorem groupFragment_total (dbt : List Nat) (i v : Nat) (hv : v < 1000) (hi : i ≤ 12) :
    (groupFragment? dbt i v).isSome := by
  obtain ⟨s0, hs0⟩ := Option.isSome_iff_exists.mp (smallName_isSome v hv)
  rw [groupFragment_eq dbt i v s0 hs0]
  by_cases hpos : 0 < i
  · have hm := lex3_eq (i - 1) (by omega)
    by_cases hgen : 1 < i ∧ v = 1
    · rw [if_pos hgen, show lex 0 1 = some "en" from rfl]
      simp [hpos, hm]
    · rw [if_neg hgen]
      simp [hpos, hm]
  · have hgen : ¬(1 < i ∧ v = 1) := by omega
    rw [if_neg hgen]
    simp [hpos]

theorem groupFragment_good (dbt : List Nat) (i v : Nat) (hv : v < 1000) (s : String)
    (h : groupFragment? dbt i v = some s) : goodStrB s = true := by
  cases hs0 : smallName? v with
  | none => rw [groupFragment?, hs0] at h; exact absurd h (by simp)
  | some s0 =>
    have hg0 : goodStrB s0 = true := smallName_good v hv s0 hs0
    rw [groupFragment_eq dbt i v s0 hs0] at h
    set s1 := (if i = 0 ∧ (v < 100 ∨ dbt.getD 1 1 = 0) then
        AND ++ " " ++ (if v = 1 then EMPH_ONE else s0)
      else s0) with hs1
    have hg1 : goodStrB s1 = true := by
      rw [hs1]
      split
      · refine goodStrB_join AND _ (by decide) ?_
        split
        · decide
        · exact hg0
      · exact hg0
    by_cases hgen : 1 < i ∧ v = 1
    · rw [if_pos hgen, show lex 0 1 = some "en" from rfl, Option.some_bind,
        if_pos (show 0 < i by omega)] at h
      cases hm : lex 3 (i - 1) with
      | none => rw [hm] at h; exact absurd h (by simp)
      | some m =>
        obtain ⟨hmg, hmsg⟩ := magnitudes_good m (lex3_mem (i - 1) m hm)
        rw [hm, Option.map_some', Option.some_inj] at h
        rw [← h, str_append_assoc]
        split
        · exact goodStrB_join _ _ (by decide) hmsg
        · rw [str_append_empty]
          exact goodStrB_join _ _ (by decide) hmg
    · rw [if_neg hgen, Option.some_bind] at h
      by_cases hpos : 0 < i
      · rw [if_pos hpos] at h
        cases hm : lex 3 (i - 1) with
        | none => rw [hm] at h; exact absurd h (by simp)
        | some m =>
          obtain ⟨hmg, hmsg⟩ := magnitudes_good m (lex3_mem (i - 1) m hm)
          rw [hm, Option.map_some', Option.some_inj] at h
          rw [← h, str_append_assoc]
          split
          · exact goodStrB_join _ _ hg1 hmsg
          · rw [str_append_empty]
            exact goodStrB_join _ _ hg1 hmg
      · rw [if_neg hpos, Option.some_inj] at h
        rw [← h]
        exact hg1

-- LOOP LEMMAS

theorem groupStringsAux_total (dbt : List Nat) :
    ∀ (l : List Nat) (i : Nat), (∀ v ∈ l, v < 1000) → i + l.length ≤ 13 →
      (groupStringsAux? dbt i l).isSome := by
  intro l
  induction l with
  | nil => intro i _ _; simp [groupStringsAux?]
  | cons d rest ih =>
    intro i hlt hlen
    have hrest := ih (i + 1) (fun v hv => hlt v (List.mem_cons_of_mem _ hv))
      (by simp only [List.length_cons] at hlen; omega)
    obtain ⟨ss, hss⟩ := Option.isSome_iff_exists.mp hrest
    by_cases hd : d = 0
    · simpa [groupStringsAux?, hd] using hrest
    · have hdlt := hlt d (List.mem_cons_self _ _)
      obtain ⟨s, hs⟩ := Option.isSome_iff_exists.mp
        (groupFragment_total dbt i d hdlt (by simp only [List.length_cons] at hlen; omega))
      simp [groupStringsAux?, hd, hs, hss]

theorem groupStringsAux_good (dbt : List Nat) :
    ∀ (l : List Nat) (i : Nat) (ss : List String), (∀ v ∈ l, v < 1000) →
      groupStringsAux? dbt i l = some ss →
      (∀ s ∈ ss, goodStrB s = true) ∧ (ss = [] → ∀ v ∈ l, v = 0) := by
  intro l
  induction l with
  | nil =>
    intro i ss _ h
    simp only [groupStringsAux?, Option.some_inj] at h
    subst h
    exact ⟨by simp, by simp⟩
  | cons d rest ih =>
    intro i ss hlt h
    by_cases hd : d = 0
    · rw [groupStringsAux?, if_pos hd] at h
      obtain ⟨hgood, hzero⟩ := ih (i + 1) ss (fun v hv => hlt v (List.mem_cons_of_mem _ hv)) h
      refine ⟨hgood, fun hnil v hv => ?_⟩
      rcases List.mem_cons.mp hv with rfl | hv2
      · exact hd
      · exact hzero hnil v hv2
    · rw [groupStringsAux?, if_neg hd] at h
      cases hf : groupFragment? dbt i d with
      | none => rw [hf] at h; exact absurd h (by simp)
      | some s =>
        cases ha : groupStringsAux? dbt (i + 1) rest with
        | none => rw [hf, ha] at h; exact absurd h (by simp)
        | some ss2 =>
          rw [hf, ha] at h
          simp only [Option.bind_eq_bind, Option.some_bind, Option.some_inj] at h
          subst h
          obtain ⟨hgood2, _⟩ := ih (i + 1) ss2 (fun v hv => hlt v (List.mem_cons_of_mem _ hv)) ha
          have hdlt := hlt d (List.mem_cons_self _ _)
          refine ⟨fun x hx => ?_, by simp⟩
          rcases List.mem_cons.mp hx with rfl | hx2
          · exact groupFragment_good dbt i d hdlt x hf
          · exact hgood2 x hx2

-- WHOLE-FUNCTION LEMMAS

theorem natAbs_lt_pow (self : Int) (h1 : -(2 ^ 127) < self) (h2 : self < 2 ^ 127) :
    self.natAbs < 1000 ^ 13 := by
  have h3 : self.natAbs < 2 ^ 127 := by omega
  have h4 : (2 ^ 127 : Nat) < 1000 ^ 13 := by norm_num
  omega

theorem i128_total (self : Int) (h1 : -(2 ^ 127) < self) (h2 : self < 2 ^ 127) :
    (danish_compound_numeral_name_i128? self).isSome := by
  have hne : ¬ self = -(2 ^ 127) := by omega
  rw [danish_compound_numeral_name_i128?, if_neg hne]
  by_cases hn : self.natAbs < 1000
  · simp only [hn, if_true]
    obtain ⟨t, ht⟩ := Option.isSome_iff_exists.mp (smallName_isSome self.natAbs hn)
    simp [ht]
  · simp only [hn, if_false]
    have hlen := digits_by_thousands_length self.natAbs 13 (natAbs_lt_pow self h1 h2)
    have htot := groupStringsAux_total (digits_by_thousands self.natAbs)
      (digits_by_thousands self.natAbs) 0
      (fun v hv => digits_by_thousands_lt self.natAbs v hv) (by omega)
    obtain ⟨ss, hss⟩ := Option.isSome_iff_exists.mp htot
    simp [groupStrings?, hss]

theorem i128_good (self : Int) (s : String)
    (h : danish_compound_numeral_name_i128? self = some s) : goodStrB s = true := by
  by_cases hne : self = -(2 ^ 127)
  · rw [danish_compound_numeral_name_i128?, if_pos hne] at h
    exact absurd h (by simp)
  · rw [danish_compound_numeral_name_i128?, if_neg hne] at h
    simp only at h
    by_cases hn : self.natAbs < 1000
    · rw [if_pos hn] at h
      cases ht : smallName? self.natAbs with
      | none => rw [ht] at h; exact absurd h (by simp)
      | some t =>
        rw [ht, Option.map_some', Option.some_inj] at h
        have htg := smallName_good self.natAbs hn t ht
        rw [← h]
        split
        · exact goodStrB_join MINUS t (by decide) htg
        · rw [str_empty_append]
          exact htg
    · rw [if_neg hn] at h
      cases hg : groupStrings? (digits_by_thousands self.natAbs) with
      | none => rw [hg] at h; exact absurd h (by simp)
      | some ss =>
        rw [hg, Option.map_some', Option.some_inj] at h
        obtain ⟨hgood, hzero⟩ := groupStringsAux_good (digits_by_thousands self.natAbs)
          (digits_by_thousands self.natAbs) 0 ss
          (fun v hv => digits_by_thousands_lt self.natAbs v hv) hg
        have hssne : ss ≠ [] := by
          intro hnil
          obtain ⟨v, hv, hvne⟩ := digits_by_thousands_exists_nonzero self.natAbs (by omega)
          exact hvne (hzero hnil v hv)
        have hjoin : goodStrB (joinSpace ss.reverse) = true := by
          refine joinSpace_good ss.reverse (by simpa using hssne) ?_
          intro x hx
          exact hgood x (List.mem_reverse.mp hx)
        rw [← h]
        split
        · exact goodStrB_join MINUS _ (by decide) hjoin
        · rw [str_empty_append]
          exact hjoin

-- FRACTIONAL-PART LEMMAS

theorem decimals_eq : ∀ (ds : List Nat), ds ≠ [] → (∀ d ∈ ds, d < 10) →
    decimalsString? ds =
      some (joinCommaSpace (ds.map (fun d => UNITS.getD d "")) ++ ", ") := by
  intro ds
  induction ds with
  | nil => intro h _; exact absurd rfl h
  | cons d rest ih =>
    intro _ hd
    have hd0 : d < 10 := hd d (List.mem_cons_self _ _)
    rcases rest with _ | ⟨e, rest2⟩
    · rw [decimalsString?, lex0_eq d hd0]
      simp only [decimalsString?, Option.bind_eq_bind, Option.some_bind, List.map_cons,
        List.map_nil, joinCommaSpace]
      rw [str_append_empty]
    · have hrest := ih (by simp) (fun x hx => hd x (List.mem_cons_of_mem _ hx))
      rw [decimalsString?, lex0_eq d hd0, hrest]
      simp only [Option.bind_eq_bind, Option.some_bind, List.map_cons, joinCommaSpace]
      rw [← str_append_assoc]

theorem popChar_comma_space (x : String) : popChar (popChar (x ++ ", ")) = x := by
  cases x with
  | mk l =>
    show String.mk (((l ++ [',', ' ']).dropLast).dropLast) = String.mk l
    rw [show l ++ [',', ' '] = (l ++ [',']) ++ [' '] from by simp, List.dropLast_concat,
      List.dropLast_concat]

theorem float_some_eq (b : Int) (ds : List Nat) (hne : ds ≠ []) (hd : ∀ d ∈ ds, d < 10) :
    danish_compound_numeral_name_f64? b (some ds) =
      (danish_compound_numeral_name_i128? b).map
        (fun s => s ++ " " ++ DECIMAL_SEPERATOR ++ " " ++
          joinCommaSpace (ds.map (fun d => UNITS.getD d ""))) := by
  rw [danish_compound_numeral_name_f64?, decimals_eq ds hne hd]
  simp only [Option.bind_eq_bind, Option.some_bind]
  cases hb : danish_compound_numeral_name_i128? b with
  | none => simp
  | some ip => simp [popChar_comma_space]

-- UNPACKING THE WELL-SPACEDNESS PREDICATE

theorem chainOkB_iff_chain : ∀ l : List Char, chainOkB l = true ↔
    List.Chain' (fun a b => ¬(a.isWhitespace = true ∧ b.isWhitespace = true)) l := by
  intro l
  match l with
  | [] => simp [chainOkB, List.chain'_nil]
  | [a] => simp [chainOkB, List.chain'_singleton]
  | a :: b :: rest =>
    rw [List.chain'_cons, ← chainOkB_iff_chain (b :: rest)]
    have hb : ((!(a.isWhitespace && b.isWhitespace)) = true) ↔
        ¬(a.isWhitespace = true ∧ b.isWhitespace = true) := by
      cases a.isWhitespace <;> cases b.isWhitespace <;> simp
    simp only [chainOkB, Bool.and_eq_true]
    exact and_congr_left' hb

theorem goodStr_unpack (s : String) (h : goodStrB s = true) :
    s.data ≠ [] ∧ s.data.head?.all (fun c => !c.isWhitespace) = true ∧
      s.data.getLast?.all (fun c => !c.isWhitespace) = true ∧
      List.Chain' (fun a b => ¬(a.isWhitespace = true ∧ b.isWhitespace = true)) s.data := by
  rw [goodStrB] at h
  rcases hl : s.data with _ | ⟨c, cs⟩
  · rw [hl] at h; exact absurd h (by simp [listGoodB])
  · rw [hl] at h
    obtain ⟨hcw, hlast, hchain⟩ := (listGoodB_iff c cs).mp h
    refine ⟨by simp, by simp [hcw], ?_, (chainOkB_iff_chain _).mp hchain⟩
    cases hgl : (c :: cs).getLast? with
    | none => exact absurd (List.getLast?_eq_none_iff.mp hgl) (by simp)
    | some x =>
      have hx : (c :: cs).getLastD ' ' = x := by
        rw [List.getLastD_eq_getLast?, hgl]
        rfl
      rw [hx] at hlast
      simp [hlast]

-- CLAIM THEOREMS

/-- Claim C1, counterexample: `name(1000)` does NOT render as the emphasized
form of "one" followed by the thousand magnitude word; it renders as the
neuter form of "one" followed by it. -/
theorem claim_C1_counterexample :
    danish_compound_numeral_name_i128? 1000 ≠ some (EMPH_ONE ++ " " ++ MAGNITUDES.getD 0 "") ∧
    danish_compound_numeral_name_i128? 1000 = some (NEUTER_ONE ++ " " ++ MAGNITUDES.getD 0 "") := by
  exact ⟨by decide, by decide⟩

/-- Claim C1 (amended): `name(1000)` renders as the neuter form of "one"
followed by the thousand magnitude word, with no leading conjunction word
(no conjunction word occurs in the rendering at all): the leading-conjunction
rule does not fire because the index-0 thousand-group of 1000 is 0. -/
theorem claim_C1 :
    danish_compound_numeral_name_i128? 1000 = some (NEUTER_ONE ++ " " ++ MAGNITUDES.getD 0 "") ∧
    (digits_by_thousands 1000).getD 0 0 = 0 ∧
    List.count AND.data (splitOnSpace (NEUTER_ONE ++ " " ++ MAGNITUDES.getD 0 "").data) = 0 := by
  exact ⟨by decide, by decide, by decide⟩

/-- Claim C2, counterexample: the minimum `i128` value, whose magnitude is
within the supported magnitude ladder (2^127 < 1000^13, so at most 13
thousand-groups and ladder indices at most 11), makes `number *= -1`
overflow `i128`: the function fails (panics) instead of returning a
string. -/
theorem claim_C2_counterexample :
    danish_compound_numeral_name_i128? (-(2 ^ 127)) = none ∧ (2 ^ 127 : Nat) < 1000 ^ 13 := by
  exact ⟨by decide, by norm_num⟩

/-- Claim C2 (amended): for every `i128` input other than the minimum value
`-2^127` (where the negation overflows), `danish_compound_numeral_name`
terminates without panicking and returns a string — no out-of-bounds lexicon
or magnitude-ladder index occurs; likewise on the float path, whose
floating-point-specific steps are modelled by their results (the floor cast
`before_decimal` and the fractional digit values of the textual
rendering). -/
theorem claim_C2_amended :
    (∀ self : Int, -(2 ^ 127) < self → self < 2 ^ 127 →
      (danish_compound_numeral_name_i128? self).isSome) ∧
    (∀ (before_decimal : Int) (ds : List Nat), -(2 ^ 127) < before_decimal →
      before_decimal < 2 ^ 127 → (∀ d ∈ ds, d < 10) →
      (danish_compound_numeral_name_f64? before_decimal (some ds)).isSome ∧
      (danish_compound_numeral_name_f64? before_decimal none).isSome) := by
  refine ⟨i128_total, fun b ds h1 h2 hd => ⟨?_, ?_⟩⟩
  · obtain ⟨s, hs⟩ := Option.isSome_iff_exists.mp (i128_total b h1 h2)
    by_cases hne : ds = []
    · subst hne
      simp [danish_compound_numeral_name_f64?, decimalsString?, hs]
    · rw [float_some_eq b ds hne hd]
      simp [hs]
  · simpa [danish_compound_numeral_name_f64?] using i128_total b h1 h2

/-- Claim C2, witness: concrete instances of the amended claim. -/
theorem claim_C2_witness :
    (danish_compound_numeral_name_i128? 1000).isSome ∧
    (danish_compound_numeral_name_f64? 3 (some [1, 4])).isSome ∧
    (danish_compound_numeral_name_f64? 3 none).isSome :=
  ⟨claim_C2_amended.1 1000 (by decide) (by decide),
   (claim_C2_amended.2 3 [1, 4] (by decide) (by decide) (by decide)).1,
   (claim_C2_amended.2 3 [1, 4] (by decide) (by decide) (by decide)).2⟩

/-- Claim C3: when the decomposer processes the index-0 thousand-group with
nonzero value, the fragment is prefixed with the conjunction word and a
space exactly when the value is below 100 or the thousands-group (index 1)
is zero, and when the value is 1 under this rule the fragment carries the
emphasized "one"; and `name(1_000_001)` contains exactly one conjunction
word. -/
theorem claim_C3 :
    (∀ n : Nat, 1000 ≤ n → n % 1000 ≠ 0 →
      groupFragment? (digits_by_thousands n) 0 (n % 1000) =
        (smallName? (n % 1000)).map
          (fun s => if n % 1000 < 100 ∨ n / 1000 % 1000 = 0 then
              AND ++ " " ++ (if n % 1000 = 1 then EMPH_ONE else s)
            else s)) ∧
    (∃ t, danish_compound_numeral_name_i128? 1000001 = some t ∧
      List.count AND.data (splitOnSpace t.data) = 1) := by
  constructor
  · intro n hn hv
    have hvlt : n % 1000 < 1000 := by omega
    obtain ⟨s, hs⟩ := Option.isSome_iff_exists.mp (smallName_isSome _ hvlt)
    rw [groupFragment_eq _ 0 _ s hs, hs,
      if_neg (by omega : ¬((1:Nat) < 0 ∧ n % 1000 = 1)),
      Option.some_bind, if_neg (by omega : ¬(0:Nat) < 0), Option.map_some']
    have hdbt : (digits_by_thousands n).getD 1 1 = n / 1000 % 1000 := by
      rw [digits_by_thousands_eq n, if_neg (by omega : ¬ n = 0),
        digits_by_thousands_eq (n / 1000), if_neg (show ¬ n / 1000 = 0 by omega)]
      rfl
    rw [hdbt]
    simp
  · exact ⟨UNITS.getD 1 "" ++ " " ++ MAGNITUDES.getD 1 "" ++ " " ++ AND ++ " " ++ EMPH_ONE,
      by decide, by decide⟩

/-- Claim C3, witness: the leading-conjunction rule at the concrete input
1001. -/
theorem claim_C3_witness :
    groupFragment? (digits_by_thousands 1001) 0 (1001 % 1000) =
      (smallName? (1001 % 1000)).map
        (fun s => if 1001 % 1000 < 100 ∨ 1001 / 1000 % 1000 = 0 then
            AND ++ " " ++ (if 1001 % 1000 = 1 then EMPH_ONE else s)
          else s) :=
  claim_C3.1 1001 (by decide) (by decide)

/-- Claim C4: every processed thousand-group at index i > 0 with nonzero
value gets a space and the magnitude-ladder name at index (i - 1) appended,
with the plural suffix appended directly to the magnitude word exactly when
i > 1 and the value is not 1 (so the thousand word, i = 1, is never
pluralized); `name(2_000_000)` pluralizes the million word and
`name(1_000_000)` does not. -/
theorem claim_C4 :
    (∀ (dbt : List Nat) (i v : Nat), 0 < i → i ≤ 12 → v ≠ 0 → v < 1000 →
      groupFragment? dbt i v =
        (smallName? v).map (fun s0 =>
          (if 1 < i ∧ v = 1 then UNITS.getD 1 "" else s0) ++ " " ++
            MAGNITUDES.getD (i - 1) "" ++
            (if 1 < i ∧ v ≠ 1 then PLURAL_SUFFIX else ""))) ∧
    danish_compound_numeral_name_i128? 2000000 =
      some (UNITS.getD 2 "" ++ " " ++ MAGNITUDES.getD 1 "" ++ PLURAL_SUFFIX) ∧
    danish_compound_numeral_name_i128? 1000000 =
      some (UNITS.getD 1 "" ++ " " ++ MAGNITUDES.getD 1 "") := by
  refine ⟨?_, by decide, by decide⟩
  intro dbt i v hi0 hi12 hv0 hvlt
  cases hs0 : smallName? v with
  | none => rw [groupFragment?, hs0]; simp
  | some s0 =>
    rw [groupFragment_eq dbt i v s0 hs0, Option.map_some']
    by_cases hgen : 1 < i ∧ v = 1
    · rw [if_pos hgen, show lex 0 1 = some "en" from rfl, Option.some_bind,
        if_pos hi0, lex3_eq (i - 1) (by omega), Option.map_some', Option.some_inj,
        if_pos hgen, if_neg (by omega : ¬(1 < i ∧ 1 < v)),
        if_neg (by omega : ¬(1 < i ∧ v ≠ 1))]
      rfl
    · rw [if_neg hgen, Option.some_bind, if_pos hi0, lex3_eq (i - 1) (by omega),
        Option.map_some', Option.some_inj,
        if_neg (show ¬(i = 0 ∧ (v < 100 ∨ dbt.getD 1 1 = 0)) by rintro ⟨h, _⟩; omega),
        if_neg hgen]
      have hiff : (1 < i ∧ 1 < v) ↔ (1 < i ∧ v ≠ 1) := by omega
      simp only [hiff]

/-- Claim C4, witness: a concrete processed group (index 2, value 3) gets
the magnitude word at ladder index 1 with the plural suffix. -/
theorem claim_C4_witness :
    groupFragment? [] 2 3 =
      (smallName? 3).map (fun s0 =>
        (if 1 < 2 ∧ 3 = 1 then UNITS.getD 1 "" else s0) ++ " " ++
          MAGNITUDES.getD (2 - 1) "" ++
          (if 1 < 2 ∧ 3 ≠ 1 then PLURAL_SUFFIX else "")) :=
  claim_C4.1 [] 2 3 (by decide) (by decide) (by decide) (by decide)

/-- Claim C5: a processed thousand-group at index i > 1 with value exactly 1
is rendered with the plain (non-neuter) "one" from the units list rather
than the neuter form the digit-group renderer supplies, while the thousands
group (i = 1) keeps the renderer's neuter form; `name(1_000_000)` begins
with the plain "one" before the million word. -/
theorem claim_C5 :
    (∀ (dbt : List Nat) (i : Nat), 1 < i → i ≤ 12 →
      groupFragment? dbt i 1 = some (UNITS.getD 1 "" ++ " " ++ MAGNITUDES.getD (i - 1) "")) ∧
    UNITS.getD 1 "" ≠ NEUTER_ONE ∧ smallName? 1 = some NEUTER_ONE ∧
    (∀ dbt : List Nat, groupFragment? dbt 1 1 = some (NEUTER_ONE ++ " " ++ MAGNITUDES.getD 0 "")) ∧
    danish_compound_numeral_name_i128? 1000000 =
      some (UNITS.getD 1 "" ++ " " ++ MAGNITUDES.getD 1 "") := by
  refine ⟨?_, by decide, by decide, ?_, by decide⟩
  · intro dbt i h1 h12
    rw [groupFragment_eq dbt i 1 NEUTER_ONE rfl,
      if_pos (⟨h1, rfl⟩ : 1 < i ∧ 1 = 1), show lex 0 1 = some "en" from rfl,
      Option.some_bind, if_pos (by omega : 0 < i), lex3_eq (i - 1) (by omega),
      Option.map_some', if_neg (by omega : ¬(1 < i ∧ 1 < 1)), str_append_empty]
    rfl
  · intro dbt
    rw [groupFragment_eq dbt 1 1 NEUTER_ONE rfl,
      if_neg (by omega : ¬((1:Nat) < 1 ∧ (1:Nat) = 1)),
      if_neg (show ¬((1:Nat) = 0 ∧ ((1:Nat) < 100 ∨ dbt.getD 1 1 = 0)) by rintro ⟨h, _⟩; omega),
      Option.some_bind, if_pos (by omega : (0:Nat) < 1),
      show lex 3 (1 - 1) = some "tusind" from rfl, Option.map_some',
      if_neg (by omega : ¬((1:Nat) < 1 ∧ (1:Nat) < 1)), str_append_empty]
    rfl

/-- Claim C5, witness: the gender override at the concrete index 2. -/
theorem claim_C5_witness :
    groupFragment? [] 2 1 = some (UNITS.getD 1 "" ++ " " ++ MAGNITUDES.getD (2 - 1) "") :=
  claim_C5.1 [] 2 (by decide) (by decide)

/-- Claim C6: the digit-group renderer on [10, 999] decomposes into
hundreds, tens and ones digits and assembles the fragments exactly as the
spec's case list (`specDigitGroup`) describes; `name(100)` and `name(101)`
are the neuter-one-hundred forms. -/
theorem claim_C6 :
    (∀ g : Nat, g < 1000 → 10 ≤ g → smallName? g = some (specDigitGroup g)) ∧
    danish_compound_numeral_name_i128? 100 = some (NEUTER_ONE ++ " " ++ HUNDRED) ∧
    danish_compound_numeral_name_i128? 101 =
      some (NEUTER_ONE ++ " " ++ HUNDRED ++ " " ++ AND ++ " " ++ EMPH_ONE) := by
  exact ⟨by decide, by decide, by decide⟩

/-- Claim C6, witness: the renderer agrees with the spec's case list at
999 (hundreds, tens and ones all populated). -/
theorem claim_C6_witness : smallName? 999 = some (specDigitGroup 999) :=
  claim_C6.1 999 (by decide) (by decide)

/-- Claim C7: for n in [0, 9], `name(n)` is the unit lexicon entry for n
except `name(1)`, which is the distinct neuter form; `name(0)` is the
lexicon's zero word. -/
theorem claim_C7 :
    (∀ n : Nat, n ≤ 9 →
      danish_compound_numeral_name_i128? (n : Int) =
        some (if n = 1 then NEUTER_ONE else UNITS.getD n "")) ∧
    danish_compound_numeral_name_i128? 0 = some "nul" := by
  exact ⟨by decide, by decide⟩

/-- Claim C7, witness: `name(5)` and `name(1)` concretely. -/
theorem claim_C7_witness :
    danish_compound_numeral_name_i128? ((5 : Nat) : Int) =
      some (if (5 : Nat) = 1 then NEUTER_ONE else UNITS.getD 5 "") ∧
    danish_compound_numeral_name_i128? ((1 : Nat) : Int) =
      some (if (1 : Nat) = 1 then NEUTER_ONE else UNITS.getD 1 "") :=
  ⟨claim_C7.1 5 (by decide), claim_C7.1 1 (by decide)⟩

/-- Claim C8: on the float path (modelled by the floor cast and the
fractional digit values of the textual rendering), a present fractional
part is rendered as the integer rendering, a space, the decimal-separator
word, a space, and the raw unit names of the fractional digits joined by a
comma-space separator; with no fractional part only the integer rendering
is returned; `name(3.14)` concretely. -/
theorem claim_C8 :
    (∀ (before_decimal : Int) (ds : List Nat), ds ≠ [] → (∀ d ∈ ds, d < 10) →
      danish_compound_numeral_name_f64? before_decimal (some ds) =
        (danish_compound_numeral_name_i128? before_decimal).map
          (fun s => s ++ " " ++ DECIMAL_SEPERATOR ++ " " ++
            joinCommaSpace (ds.map (fun d => UNITS.getD d "")))) ∧
    (∀ before_decimal : Int,
      danish_compound_numeral_name_f64? before_decimal none =
        danish_compound_numeral_name_i128? before_decimal) ∧
    danish_compound_numeral_name_f64? 3 (some [1, 4]) =
      (danish_compound_numeral_name_i128? 3).map
        (fun s => s ++ " " ++ DECIMAL_SEPERATOR ++ " " ++
          (UNITS.getD 1 "" ++ ", " ++ UNITS.getD 4 "")) := by
  exact ⟨float_some_eq, fun b => rfl, by decide⟩

/-- Claim C8, witness: the fractional-part formula at the concrete split of
3.14. -/
theorem claim_C8_witness :
    danish_compound_numeral_name_f64? 3 (some [1, 4]) =
      (danish_compound_numeral_name_i128? 3).map
        (fun s => s ++ " " ++ DECIMAL_SEPERATOR ++ " " ++
          joinCommaSpace ([1, 4].map (fun d => UNITS.getD d ""))) :=
  claim_C8.1 3 [1, 4] (by decide) (by decide)

/-- Claim C9: for positive n with both n and -n valid i128 inputs,
`name(-n)` is the minus word, a space, then `name(n)`: the group and
magnitude logic never observes the sign; `name(-42)` concretely. -/
theorem claim_C9 :
    (∀ n : Int, 0 < n → n < 2 ^ 127 →
      danish_compound_numeral_name_i128? (-n) =
        (danish_compound_numeral_name_i128? n).map (fun s => MINUS ++ " " ++ s)) ∧
    danish_compound_numeral_name_i128? (-42) =
      (danish_compound_numeral_name_i128? 42).map (fun s => MINUS ++ " " ++ s) := by
  refine ⟨?_, by decide⟩
  intro n h0 h2
  have hneA : ¬ (-n : Int) = -(2 ^ 127) := by omega
  have hneB : ¬ (n : Int) = -(2 ^ 127) := by omega
  simp only [danish_compound_numeral_name_i128?]
  rw [if_neg hneA, if_neg hneB]
  have hnegT : ((-n : Int) < 0) = True := eq_true (by omega)
  have hnegF : ((n : Int) < 0) = False := eq_false (by omega)
  simp only [hnegT, hnegF, if_true, if_false, Int.natAbs_neg]
  by_cases hlt : n.natAbs < 1000
  · rw [if_pos hlt, if_pos hlt]
    cases hsm : smallName? n.natAbs with
    | none => simp [hsm]
    | some t => simp [hsm, str_empty_append]
  · rw [if_neg hlt, if_neg hlt]
    cases hg : groupStrings? (digits_by_thousands n.natAbs) with
    | none => simp [hg]
    | some ss => simp [hg, str_empty_append]

/-- Claim C9, witness: the sign rule applied at n = 5. -/
theorem claim_C9_witness :
    danish_compound_numeral_name_i128? (-(5 : Int)) =
      (danish_compound_numeral_name_i128? 5).map (fun s => MINUS ++ " " ++ s) :=
  claim_C9.1 5 (by decide) (by decide)

/-- Claim C10: whenever the i128 function returns a string, that string is
nonempty, its first and last characters are not whitespace (no leading or
trailing whitespace), and it never has two adjacent whitespace characters
(no doubled spaces from skipped zero groups or the conjunction and
magnitude joints). -/
theorem claim_C10 :
    ∀ (self : Int) (s : String), danish_compound_numeral_name_i128? self = some s →
      s.data ≠ [] ∧ s.data.head?.all (fun c => !c.isWhitespace) = true ∧
        s.data.getLast?.all (fun c => !c.isWhitespace) = true ∧
        List.Chain' (fun a b => ¬(a.isWhitespace = true ∧ b.isWhitespace = true)) s.data :=
  fun self s h => goodStr_unpack s (i128_good self s h)

/-- Claim C10, witness: the whitespace invariant at the concrete output of
`name(0)`. -/
theorem claim_C10_witness :
    ("nul" : String).data ≠ [] ∧
      ("nul" : String).data.head?.all (fun c => !c.isWhitespace) = true ∧
      ("nul" : String).data.getLast?.all (fun c => !c.isWhitespace) = true ∧
      List.Chain' (fun a b => ¬(a.isWhitespace = true ∧ b.isWhitespace = true))
        ("nul" : String).data :=
  claim_C10 0 "nul" (by decide)
